import Mathlib

/-!
Verification development for the submarine-swap engine of this repository.

The gRPC glue layer (package `submarineswaprpc`: `SubSwapClientInit`,
`SubSwapServiceInit`, `SubSwapClientWatch`, `UnspentAmount`,
`SubSwapServiceRedeemFees`, `SubSwapServiceRedeem`, `SubSwapClientRefund`)
is embedded directly from the source files.  The engine package it calls
(`submarineswap`: `NewSubmarineSwap`, `WatchSubmarineSwap`, `AddressFromHash`,
`CreationHeight`, `GetUtxos`, `RedeemFees`, `Redeem`, `RefundTx`) is part of
this repository but its source is not present here; those collaborators are
modelled from the specification (each such definition carries a
`Modelled from the spec:` doc comment).

Conventions of the embedding:
* byte strings (hashes, keys, preimages, serialized scripts) are `List Nat`;
* amounts and block heights are `Int` (Go `int64`/`int32`; the code never
  relies on wrap-around, and the spec demands overflow-free summation, so
  plain integers are the faithful model);
* Go's `(value..., err)` multiple-return convention is `Except` when every
  caller checks the error, and `value × Option error` where a caller is free
  to ignore it (this distinction matters for `CreationHeight`, whose error
  the `UnspentAmount` glue drops on the floor);
* the chain index is a pure value: a list of (address, utxo) pairs of all
  currently unspent outputs.
-/

/-- Error taxonomy of the engine (spec section 7). -/
inductive SwapError where
  | invalidParameters
  | duplicateSwap
  | notFound
  | invalidPreimage
  | lockNotExpired
  | insufficientFunds
  | feeEstimationUnavailable
  | chainQueryFailed
  | invalidAddress
deriving DecidableEq, Repr

/-- SwapParameters: immutable parameters of one swap. -/
structure SwapParams where
  hash : List Nat
  clientPubKey : List Nat
  servicePubKey : List Nat
  lockHeight : Int
deriving DecidableEq, Repr

/-- SwapRecord: persisted record, keyed by `params.hash`. -/
structure SwapRecord where
  params : SwapParams
  address : String
  creationHeight : Int
deriving DecidableEq, Repr

/-- One unspent output as reported by the chain index. -/
structure Utxo where
  txid : String
  index : Nat
  value : Int
  blockHeight : Int
deriving DecidableEq, Repr

/-- The durable swap index: an association list keyed by the 32-byte hash. -/
abbrev SwapStore := List (List Nat × SwapRecord)

/-- `Get(hash)` on the swap index. -/
def lookupSwap : SwapStore → List Nat → Option SwapRecord
  | [], _ => none
  | (k, r) :: rest, h => if k = h then some r else lookupSwap rest h

/-- Lookup of the swap record owning a deposit address. -/
def findByAddress : SwapStore → String → Option SwapRecord
  | [], _ => none
  | (_, r) :: rest, a => if r.address = a then some r else findByAddress rest a

/-- Modelled from the spec: `SwapIndex.Put` inserts a record keyed by its
hash and fails with `DuplicateSwap` if a record for that hash already
exists, never overwriting the stored parameters. -/
def putSwap (st : SwapStore) (r : SwapRecord) : Except SwapError SwapStore :=
  match lookupSwap st r.params.hash with
  | some _ => .error .duplicateSwap
  | none => .ok ((r.params.hash, r) :: st)

/-- Modelled from the spec: the witness script derived by `ScriptBuilder`
from (hash, clientPubKey, servicePubKey, lockHeight).  The exact opcode
layout lives in the missing `submarineswap` package; what the claims need
is that it is a pure, injective-enough encoding of the four parameters. -/
def deriveSwapScript (hash clientPub svcPub : List Nat) (lockHeight : Int) : List Nat :=
  [hash.length] ++ hash ++ [clientPub.length] ++ clientPub ++
    [svcPub.length] ++ svcPub ++ [lockHeight.toNat]

/-- Modelled from the spec: the on-chain deposit address corresponding to
the derived swap script (in the real code a P2WSH address; modelled as a
rendering of the script). -/
def deriveSwapAddress (hash clientPub svcPub : List Nat) (lockHeight : Int) : String :=
  "swp" ++ toString (deriveSwapScript hash clientPub svcPub lockHeight)

/-- Modelled from the spec: `UtxoScanner.Scan` / `submarineswap.GetUtxos`
returns every currently unspent output paying `address` confirmed at or
after `start`. -/
def getUtxos (chain : List (String × Utxo)) (start : Int) (address : String) : List Utxo :=
  (chain.filter (fun p => decide (p.1 = address) && decide (start ≤ p.2.blockHeight))).map
    (fun p => p.2)

/-- Modelled from the spec: `submarineswap.AddressFromHash` resolves the
swap record by hash, returning its address, creation height and lock
height; fails with `NotFound` for an unknown hash. -/
def addressFromHash (st : SwapStore) (h : List Nat) : Except SwapError (String × Int × Int) :=
  match lookupSwap st h with
  | some r => .ok (r.address, r.creationHeight, r.params.lockHeight)
  | none => .error .notFound

/-- Modelled from the spec: `submarineswap.CreationHeight` resolves the
creation height and lock height of the swap owning `addr`; fails with
`NotFound` if the address is unknown.  Rendered Go-style as values plus an
optional error (zero values accompany the error), because the
`UnspentAmount` caller reads the values without checking the error. -/
def creationHeightGo (st : SwapStore) (addr : String) : (Int × Int) × Option SwapError :=
  match findByAddress st addr with
  | some r => ((r.creationHeight, r.params.lockHeight), none)
  | none => ((0, 0), some .notFound)

/-- Wire shape of one utxo in the `UnspentAmount` response. -/
structure UtxoMsg where
  blockHeight : Int
  amount : Int
  txid : String
  index : Nat
deriving DecidableEq, Repr

/-- `UnspentAmountRequest`: the caller supplies an address or a hash. -/
structure UnspentAmountRequest where
  address : String
  hash : List Nat
deriving DecidableEq, Repr

/-- `UnspentAmountResponse`. -/
structure UnspentAmountResponse where
  amount : Int
  lockHeight : Int
  utxos : List UtxoMsg
deriving DecidableEq, Repr

/-- The per-utxo message built inside the `UnspentAmount` loop. -/
def toUtxoMsg (u : Utxo) : UtxoMsg :=
  { blockHeight := u.blockHeight, amount := u.value, txid := u.txid, index := u.index }

/-- The scan-and-sum tail of `UnspentAmount`: runs `GetUtxos` and folds the
response exactly as the Go loop does (appending each utxo and accumulating
`totalAmount`). -/
def scanResponse (chain : List (String × Utxo)) (start : Int) (address : String)
    (lockHeight : Int) : UnspentAmountResponse :=
  let utxos := getUtxos chain start address
  { amount := utxos.foldl (fun acc u => acc + u.value) 0,
    lockHeight := lockHeight,
    utxos := utxos.map toUtxoMsg }

/-- Embedding of `Server.UnspentAmount`: if the request carries a non-empty
hash, everything (address, scan start, lock height) is resolved through
`AddressFromHash` and that error is checked; otherwise the supplied address
is decoded (`validAddr` stands for `btcutil.DecodeAddress` succeeding) and
`CreationHeight` is called — whose error the source does NOT check before
scanning. -/
def unspentAmount (validAddr : String → Bool) (st : SwapStore)
    (chain : List (String × Utxo)) (req : UnspentAmountRequest) :
    Except SwapError UnspentAmountResponse :=
  if 0 < req.hash.length then
    match addressFromHash st req.hash with
    | .error e => .error e
    | .ok (address, start, lockHeight) => .ok (scanResponse chain start address lockHeight)
  else
    if validAddr req.address then
      let r := creationHeightGo st req.address
      .ok (scanResponse chain r.1.1 req.address r.1.2)
    else .error .invalidAddress

/-- `SubSwapClientInitResponse` wire shape. -/
structure SubSwapClientInitResponse where
  preimage : List Nat
  hash : List Nat
  key : List Nat
  pubkey : List Nat
deriving DecidableEq, Repr

/-- Embedding of `Server.SubSwapClientInit`: the source calls
`submarineswap.SubmarineSwapInit` (modelled here as the supplied
collaborator result, Go-style values plus optional error) and returns the
populated response struct TOGETHER with whatever error came back, with no
check in between. -/
def subSwapClientInit
    (initResult : (List Nat × List Nat × List Nat × List Nat) × Option SwapError) :
    Option SubSwapClientInitResponse × Option SwapError :=
  (some { preimage := initResult.1.1, hash := initResult.1.2.1,
          key := initResult.1.2.2.1, pubkey := initResult.1.2.2.2 },
   initResult.2)

/-- Modelled from the spec: the lock height chosen by the service is the
creation height plus a fixed delay, so that it is strictly in the future. -/
def lockHeightDelta : Int := 288

/-- Modelled from the spec: `submarineswap.NewSubmarineSwap`, the
service-side initialization behind `SubSwapServiceInit`.  Validates the
32-byte hash, derives the deposit address from
(hash, clientPubKey, servicePubKey, lockHeight), and `Put`s the record,
failing with `DuplicateSwap` if a record for this hash already exists.
Returns (address, servicePubKey, lockHeight) and the updated store. -/
def serviceInit (store : SwapStore) (hash clientPub svcPub : List Nat)
    (currentHeight : Int) :
    Except SwapError (String × List Nat × Int × SwapStore) :=
  if hash.length ≠ 32 then .error .invalidParameters
  else
    let lockHeight := currentHeight + lockHeightDelta
    let addr := deriveSwapAddress hash clientPub svcPub lockHeight
    let record : SwapRecord :=
      { params := { hash := hash, clientPubKey := clientPub,
                    servicePubKey := svcPub, lockHeight := lockHeight },
        address := addr, creationHeight := currentHeight }
    match putSwap store record with
    | .error e => .error e
    | .ok st' => .ok (addr, svcPub, lockHeight, st')

/-- Modelled from the spec: `submarineswap.WatchSubmarineSwap`, the
client-side derivation behind `SubSwapClientWatch`.  Hashes the preimage,
derives the client's public key from its key material, and recomputes the
same script and address as the service (side effects — importing the
script into the wallet — do not affect the returned pair). -/
def clientWatch (hashFn pubFn : List Nat → List Nat)
    (preimage key svcPub : List Nat) (lockHeight : Int) : String × List Nat :=
  let hash := hashFn preimage
  (deriveSwapAddress hash (pubFn key) svcPub lockHeight,
   deriveSwapScript hash (pubFn key) svcPub lockHeight)

/-- The unspent deposit outputs of a swap record: everything at its
address confirmed at or after its creation height. -/
def depositUtxos (chain : List (String × Utxo)) (r : SwapRecord) : List Utxo :=
  getUtxos chain r.creationHeight r.address

/-- Total confirmed deposit of a swap record. -/
def depositTotal (chain : List (String × Utxo)) (r : SwapRecord) : Int :=
  ((depositUtxos chain r).map Utxo.value).sum

/-- Modelled from the spec: weight estimate of a redeem transaction
spending `n` swap outputs (base weight plus per-input weight; the exact
constants live in the missing package, only positivity matters). -/
def redeemWeight (n : Nat) : Int := 900 + 610 * n

/-- Modelled from the spec: weight estimate of a refund transaction
spending `n` swap outputs. -/
def refundWeight (n : Nat) : Int := 800 + 500 * n

/-- The redeem settlement transaction. -/
structure RedeemTx where
  inputs : List Utxo
  destAddress : String
  outputValue : Int
  fee : Int
  preimage : List Nat
  signedBy : List Nat
deriving DecidableEq, Repr

/-- The refund settlement transaction. -/
structure RefundTx where
  inputs : List Utxo
  destAddress : String
  outputValue : Int
  lockTime : Int
  signedBy : List Nat
deriving DecidableEq, Repr

/-- Modelled from the spec: `SettlementBuilder.BuildRedeem` /
`submarineswap.Redeem`.  First validates `hash(preimage) == params.hash`
(failing with `InvalidPreimage` before any UTXO selection or signing),
then selects all unspent outputs at the swap address, deducts
`fee = feePerWeight * weight`, fails with `InsufficientFunds` unless a
positive output remains, and signs with the service key and preimage. -/
def buildRedeem (hashFn : List Nat → List Nat) (r : SwapRecord) (preimage : List Nat)
    (chain : List (String × Utxo)) (destAddress : String) (feePerWeight : Int) :
    Except SwapError RedeemTx :=
  if hashFn preimage ≠ r.params.hash then .error .invalidPreimage
  else
    let utxos := depositUtxos chain r
    let total := (utxos.map Utxo.value).sum
    let fee := feePerWeight * redeemWeight utxos.length
    if total ≤ fee then .error .insufficientFunds
    else .ok { inputs := utxos, destAddress := destAddress, outputValue := total - fee,
               fee := fee, preimage := preimage, signedBy := r.params.servicePubKey }

/-- Modelled from the spec: the fee estimate returned by
`submarineswap.RedeemFees` for the current deposit of the swap. -/
def redeemFeeAmount (chain : List (String × Utxo)) (r : SwapRecord)
    (feePerWeight : Int) : Int :=
  feePerWeight * redeemWeight (depositUtxos chain r).length

/-- Modelled from the spec: `SettlementBuilder.BuildRefund` /
`submarineswap.RefundTx`.  Fails with `LockNotExpired` whenever
`currentHeight < params.lockHeight`; otherwise selects the deposit
outputs, deducts the fee (failing with `InsufficientFunds` unless a
positive output remains) and signs with the client key on the locktime
path, returning the transaction together with the fee deducted. -/
def buildRefund (r : SwapRecord) (chain : List (String × Utxo))
    (destAddress : String) (feePerWeight currentHeight : Int) :
    Except SwapError (RefundTx × Int) :=
  if currentHeight < r.params.lockHeight then .error .lockNotExpired
  else
    let utxos := depositUtxos chain r
    let total := (utxos.map Utxo.value).sum
    let fee := feePerWeight * refundWeight utxos.length
    if total ≤ fee then .error .insufficientFunds
    else .ok ({ inputs := utxos, destAddress := destAddress, outputValue := total - fee,
                lockTime := r.params.lockHeight, signedBy := r.params.clientPubKey }, fee)

/-- Modelled from the spec: `sweep.DetermineFeePerKw` — an explicit
positive rate override wins, otherwise the external estimator is queried
for the confirmation target (failing with `FeeEstimationUnavailable` when
it cannot produce a value). -/
def determineFeePerKw (estimator : Int → Except SwapError Int)
    (confTarget feeRate : Int) : Except SwapError Int :=
  if 0 < feeRate then .ok feeRate else estimator confTarget

/-- Modelled from the spec: `submarineswap.RefundTx`, as called by the
glue, resolves the swap record owning the deposit address (NotFound if
unknown) and builds the refund against it. -/
def refundTxByAddress (st : SwapStore) (chain : List (String × Utxo))
    (currentHeight : Int) (address refundAddress : String) (feePerKw : Int) :
    Except SwapError (RefundTx × Int) :=
  match findByAddress st address with
  | none => .error .notFound
  | some r => buildRefund r chain refundAddress feePerKw currentHeight

/-- Serialization of one input for `MsgTx.Serialize`. -/
def serializeUtxo (u : Utxo) : List Nat :=
  (u.txid.toList.map Char.toNat) ++ [u.index, u.value.toNat, u.blockHeight.toNat]

/-- Serialization of the full signed refund transaction (`tx.Serialize`
into the response buffer): a byte rendering that covers every field of
the transaction. -/
def serializeTx (tx : RefundTx) : List Nat :=
  [tx.inputs.length] ++ (tx.inputs.map serializeUtxo).flatten ++
    (tx.destAddress.toList.map Char.toNat) ++
    [tx.outputValue.toNat, tx.lockTime.toNat] ++ tx.signedBy

/-- `SubSwapClientRefundRequest` wire shape. -/
structure SubSwapClientRefundRequest where
  address : String
  refundAddress : String
  satPerByte : Int
  targetConf : Int
deriving DecidableEq, Repr

/-- `SubSwapClientRefundResponse` wire shape (current server): serialized
transaction bytes plus the fee deducted. -/
structure SubSwapClientRefundResponse where
  tx : List Nat
  fees : Int
deriving DecidableEq, Repr

/-- Embedding of `Server.SubSwapClientRefund` (current server): decodes
both addresses, resolves the fee rate
(`SatPerKVByte(satPerByte*1000).FeePerKWeight()` is
`satPerByte*1000/4`, then `DetermineFeePerKw`), calls
`submarineswap.RefundTx`, serializes the signed transaction and returns
its bytes together with the fees. -/
def subSwapClientRefund (validAddr : String → Bool)
    (estimator : Int → Except SwapError Int) (st : SwapStore)
    (chain : List (String × Utxo)) (currentHeight : Int)
    (req : SubSwapClientRefundRequest) :
    Except SwapError SubSwapClientRefundResponse :=
  if ¬ validAddr req.address then .error .invalidAddress
  else if ¬ validAddr req.refundAddress then .error .invalidAddress
  else
    match determineFeePerKw estimator req.targetConf (req.satPerByte * 1000 / 4) with
    | .error e => .error e
    | .ok feePerKw =>
      match refundTxByAddress st chain currentHeight req.address req.refundAddress feePerKw with
      | .error e => .error e
      | .ok (tx, fees) => .ok { tx := serializeTx tx, fees := fees }

/-! ## Concrete fixtures used by the witnesses -/

/-- A 32-byte hash (the spec's concrete scenario uses an all-zero preimage). -/
def testHash : List Nat := List.replicate 32 0

/-- A client public key. -/
def testClientPub : List Nat := [2, 170]

/-- A service public key. -/
def testSvcPub : List Nat := [3, 187]

/-- A funded swap record with lock height 800000 (spec section 8). -/
def testRecord : SwapRecord :=
  { params := { hash := testHash, clientPubKey := testClientPub,
                servicePubKey := testSvcPub, lockHeight := 800000 },
    address := "swpAddr", creationHeight := 799000 }

/-- A store holding `testRecord`. -/
def testStore : SwapStore := [(testHash, testRecord)]

/-- A chain with one 100000-unit deposit at the swap address. -/
def testChain : List (String × Utxo) :=
  [("swpAddr", { txid := "t1", index := 0, value := 100000, blockHeight := 799100 })]

/-- The record created by `serviceInit [] testHash testClientPub testSvcPub 799000`. -/
def testRecord2 : SwapRecord :=
  { params := { hash := testHash, clientPubKey := testClientPub,
                servicePubKey := testSvcPub, lockHeight := 799288 },
    address := deriveSwapAddress testHash testClientPub testSvcPub 799288,
    creationHeight := 799000 }

/-- The store resulting from that first service-side initialization. -/
def testStore2 : SwapStore := [(testHash, testRecord2)]

/-! ## Helper lemmas (shared) -/

/-- The running total accumulated by the `UnspentAmount` loop is the sum of
the utxo values. -/
theorem foldl_add_value (l : List Utxo) (a : Int) :
    l.foldl (fun acc u => acc + u.value) a = a + (l.map Utxo.value).sum := by
  induction l generalizing a with
  | nil => simp
  | cons x xs ih => simp [ih]; ring

/-- The amounts carried by the response utxo messages are the scanned
values. -/
theorem map_amount_toUtxoMsg (l : List Utxo) :
    (l.map toUtxoMsg).map UtxoMsg.amount = l.map Utxo.value := by
  induction l with
  | nil => rfl
  | cons x xs ih => simp [toUtxoMsg, ih]

/-- A successful refund build spends the whole deposit: output plus fee
equals the confirmed total. -/
theorem buildRefund_ok_spend (r : SwapRecord) (chain : List (String × Utxo))
    (dest : String) (fpw h : Int) (tx : RefundTx) (fee : Int)
    (hok : buildRefund r chain dest fpw h = .ok (tx, fee)) :
    tx.outputValue + fee = depositTotal chain r := by
  simp only [buildRefund] at hok
  split at hok
  · exact absurd hok (by simp)
  · split at hok
    · exact absurd hok (by simp)
    · simp only [Except.ok.injEq, Prod.mk.injEq] at hok
      obtain ⟨htx, hfee⟩ := hok
      subst htx
      subst hfee
      simp only [depositTotal]
      omega

/-! ## Claims -/

/-- Claim C1 (code bug): the claim says an `UnspentAmount` request with an
address unknown to the swap index fails with `NotFound`.  The source drops
the error returned by `CreationHeight` (the `err` of the address branch is
assigned and never checked), so the call instead succeeds, scanning from
height 0 and reporting lock height 0.  This theorem evaluates the embedded
handler at such an input and shows the successful result. -/
theorem unspentAmount_swallows_creationHeight_error :
    unspentAmount (fun _ => true) [] [] { address := "unknownAddr", hash := [] } =
      .ok { amount := 0, lockHeight := 0, utxos := [] } := rfl

/-- Claim C9 (code bug): the claim says every exposed operation returns a
result or an error, never both, and swallows no collaborator failure.
`SubSwapClientInit` returns the populated response struct together with
the error of `SubmarineSwapInit`: evaluating the embedded handler on a
failing collaborator result yields both a response and an error. -/
theorem subSwapClientInit_returns_result_and_error :
    subSwapClientInit (([], [], [], []), some .chainQueryFailed) =
      (some { preimage := [], hash := [], key := [], pubkey := [] },
       some SwapError.chainQueryFailed) := rfl

/-- Claim C10: when the request carries a non-empty hash, the
caller-supplied address is ignored — the handler's result is identical
for any two addresses supplied alongside the same hash. -/
theorem unspentAmount_hash_overrides_address (v : String → Bool) (st : SwapStore)
    (chain : List (String × Utxo)) (a1 a2 : String) (h : List Nat)
    (hne : h ≠ []) :
    unspentAmount v st chain { address := a1, hash := h } =
      unspentAmount v st chain { address := a2, hash := h } := by
  have hl : 0 < h.length := List.length_pos.mpr hne
  simp only [unspentAmount, if_pos hl]

/-- Witness for C10 at a concrete request pair. -/
theorem unspentAmount_hash_overrides_address_witness :
    unspentAmount (fun _ => true) testStore testChain
        { address := "someAddr", hash := testHash } =
      unspentAmount (fun _ => true) testStore testChain
        { address := "otherAddr", hash := testHash } :=
  unspentAmount_hash_overrides_address (fun _ => true) testStore testChain
    "someAddr" "otherAddr" testHash (by decide)

/-- The scan-and-sum helper reports as `amount` exactly the sum of the
amounts of the utxo messages it returns. -/
theorem scanResponse_amount (chain : List (String × Utxo)) (start : Int)
    (address : String) (lock : Int) :
    (scanResponse chain start address lock).amount =
      ((scanResponse chain start address lock).utxos.map UtxoMsg.amount).sum := by
  show (getUtxos chain start address).foldl (fun acc u => acc + u.value) 0 =
    (((getUtxos chain start address).map toUtxoMsg).map UtxoMsg.amount).sum
  rw [map_amount_toUtxoMsg, foldl_add_value]
  simp

/-- Claim C7: every successful `UnspentAmount` response reports as total
amount the sum of the amounts of the utxos it returns, its utxo list is
exactly the scan of the owning swap's address from its creation height,
and its lock height is the one recorded for the swap that owns the
queried hash (hash branch) or address (address branch). -/
theorem unspentAmount_total_and_lock (v : String → Bool) (st : SwapStore)
    (chain : List (String × Utxo)) (req : UnspentAmountRequest)
    (resp : UnspentAmountResponse)
    (hok : unspentAmount v st chain req = .ok resp) :
    resp.amount = (resp.utxos.map UtxoMsg.amount).sum ∧
    (∀ r, req.hash ≠ [] → lookupSwap st req.hash = some r →
      resp.lockHeight = r.params.lockHeight ∧
      resp.utxos = (getUtxos chain r.creationHeight r.address).map toUtxoMsg) ∧
    (∀ r, req.hash = [] → findByAddress st req.address = some r →
      resp.lockHeight = r.params.lockHeight ∧
      resp.utxos = (getUtxos chain r.creationHeight req.address).map toUtxoMsg) := by
  simp only [unspentAmount] at hok
  split at hok
  case isTrue hl =>
    revert hok
    cases hfind : addressFromHash st req.hash with
    | error e => intro hok; exact absurd hok (by simp)
    | ok triple =>
      intro hok
      simp only [Except.ok.injEq] at hok
      subst hok
      revert hfind
      simp only [addressFromHash]
      cases hlook : lookupSwap st req.hash with
      | none => intro hfind; exact absurd hfind (by simp)
      | some r0 =>
        intro hfind
        simp only [Except.ok.injEq] at hfind
        subst hfind
        refine ⟨scanResponse_amount _ _ _ _, ?_, ?_⟩
        · intro r _ hr
          obtain rfl := Option.some.inj hr
          exact ⟨rfl, rfl⟩
        · intro r hemp _
          rw [hemp] at hl
          simp at hl
  case isFalse hl =>
    have hemp : req.hash = [] := by
      cases hh : req.hash with
      | nil => rfl
      | cons a as => rw [hh] at hl; simp at hl
    revert hok
    split
    case isTrue hv =>
      intro hok
      simp only [Except.ok.injEq] at hok
      subst hok
      refine ⟨scanResponse_amount _ _ _ _, ?_, ?_⟩
      · intro r hne _
        exact absurd hemp hne
      · intro r _ hfind
        simp only [creationHeightGo, hfind]
        exact ⟨rfl, rfl⟩
    case isFalse hv =>
      intro hok
      exact absurd hok (by simp)

/-- The concrete request used by the C7 witness. -/
def testReq : UnspentAmountRequest := { address := "ignoredAddr", hash := testHash }

/-- The response the embedded handler computes for `testReq`. -/
def testResp : UnspentAmountResponse :=
  { amount := 100000, lockHeight := 800000,
    utxos := [{ blockHeight := 799100, amount := 100000, txid := "t1", index := 0 }] }

/-- Witness for C7 at a concrete successful call. -/
theorem unspentAmount_total_and_lock_witness :
    testResp.amount = (testResp.utxos.map UtxoMsg.amount).sum ∧
    (∀ r, testReq.hash ≠ [] → lookupSwap testStore testReq.hash = some r →
      testResp.lockHeight = r.params.lockHeight ∧
      testResp.utxos = (getUtxos testChain r.creationHeight r.address).map toUtxoMsg) ∧
    (∀ r, testReq.hash = [] → findByAddress testStore testReq.address = some r →
      testResp.lockHeight = r.params.lockHeight ∧
      testResp.utxos = (getUtxos testChain r.creationHeight testReq.address).map toUtxoMsg) :=
  unspentAmount_total_and_lock (fun _ => true) testStore testChain testReq testResp rfl

/-- Claim C2: redeem succeeds iff the supplied preimage hashes to the
stored commitment (given the deposit covers the fee), and on a mismatch it
fails with `InvalidPreimage` for every chain state, destination and fee
rate — i.e. the preimage check precedes UTXO selection and signing. -/
theorem buildRedeem_preimage_gate (hashFn : List Nat → List Nat) (r : SwapRecord)
    (p : List Nat) (chain : List (String × Utxo)) (dest : String) (fpw : Int)
    (hfunds : fpw * redeemWeight (depositUtxos chain r).length < depositTotal chain r) :
    ((buildRedeem hashFn r p chain dest fpw).isOk ↔ hashFn p = r.params.hash) ∧
    (hashFn p ≠ r.params.hash → ∀ chain' dest' fpw',
      buildRedeem hashFn r p chain' dest' fpw' = .error .invalidPreimage) := by
  have hfee : ¬ (((depositUtxos chain r).map Utxo.value).sum ≤
      fpw * redeemWeight (depositUtxos chain r).length) := not_le.mpr hfunds
  refine ⟨?_, ?_⟩
  · constructor
    · intro hOk
      by_contra hp
      simp [buildRedeem, if_pos hp, Except.isOk, Except.toBool] at hOk
    · intro hp
      simp [buildRedeem, hp, hfee, Except.isOk, Except.toBool]
  · intro hp chain' dest' fpw'
    simp [buildRedeem, if_pos hp]

/-- Witness for C2 at the funded test swap with a zero fee rate. -/
theorem buildRedeem_preimage_gate_witness :
    ((buildRedeem id testRecord testHash testChain "destAddr" 0).isOk ↔
      id testHash = testRecord.params.hash) ∧
    (id testHash ≠ testRecord.params.hash → ∀ chain' dest' fpw',
      buildRedeem id testRecord testHash chain' dest' fpw' = .error .invalidPreimage) :=
  buildRedeem_preimage_gate id testRecord testHash testChain "destAddr" 0 (by decide)

/-- Claim C3: a refund attempted strictly below the record's lock height
fails with `LockNotExpired` and yields no transaction, while at or above
the lock height with a deposit exceeding the fee it succeeds, returning a
transaction signed on the client/locktime path. -/
theorem buildRefund_lock_gate (r : SwapRecord) (chain : List (String × Utxo))
    (dest : String) (fpw h : Int) :
    (h < r.params.lockHeight → buildRefund r chain dest fpw h = .error .lockNotExpired) ∧
    (r.params.lockHeight ≤ h →
      fpw * refundWeight (depositUtxos chain r).length < depositTotal chain r →
      ∃ tx fee, buildRefund r chain dest fpw h = .ok (tx, fee) ∧
        tx.signedBy = r.params.clientPubKey ∧ tx.lockTime = r.params.lockHeight) := by
  constructor
  · intro hlt
    simp [buildRefund, if_pos hlt]
  · intro hge hfunds
    have hfee : ¬ (((depositUtxos chain r).map Utxo.value).sum ≤
        fpw * refundWeight (depositUtxos chain r).length) := not_le.mpr hfunds
    refine ⟨{ inputs := depositUtxos chain r, destAddress := dest,
              outputValue := ((depositUtxos chain r).map Utxo.value).sum -
                fpw * refundWeight (depositUtxos chain r).length,
              lockTime := r.params.lockHeight, signedBy := r.params.clientPubKey },
            fpw * refundWeight (depositUtxos chain r).length, ?_, rfl, rfl⟩
    simp [buildRefund, not_lt.mpr hge, hfee]

/-- Witness for C3: at the spec's concrete scenario the refund fails at
height 799999 and succeeds at height 800000. -/
theorem buildRefund_lock_gate_witness :
    buildRefund testRecord testChain "destX" 1 799999 = .error .lockNotExpired ∧
    (∃ tx fee, buildRefund testRecord testChain "destX" 1 800000 = .ok (tx, fee) ∧
      tx.signedBy = testRecord.params.clientPubKey ∧
      tx.lockTime = testRecord.params.lockHeight) :=
  ⟨(buildRefund_lock_gate testRecord testChain "destX" 1 799999).1 (by decide),
   (buildRefund_lock_gate testRecord testChain "destX" 1 800000).2 (by decide) (by decide)⟩

/-- Claim C4: after a successful service-side initialization for a hash, a
second initialization for the same hash fails with `DuplicateSwap` — for
any second payload — and the stored record of the first initialization is
still the one the index returns for that hash. -/
theorem serviceInit_duplicate_rejected (store st' : SwapStore)
    (hash pubA pubA2 svc svc2 : List Nat) (h1 h2 : Int)
    (addr : String) (spub : List Nat) (lock : Int)
    (hfirst : serviceInit store hash pubA svc h1 = .ok (addr, spub, lock, st')) :
    serviceInit st' hash pubA2 svc2 h2 = .error .duplicateSwap ∧
    lookupSwap st' hash = some
      { params := { hash := hash, clientPubKey := pubA, servicePubKey := svc,
                    lockHeight := h1 + lockHeightDelta },
        address := deriveSwapAddress hash pubA svc (h1 + lockHeightDelta),
        creationHeight := h1 } := by
  simp only [serviceInit, putSwap] at hfirst
  split at hfirst
  · exact absurd hfirst (by simp)
  case isFalse hlen =>
    split at hfirst
    · exact absurd hfirst (by simp)
    next st2 heq =>
      split at heq
      · exact absurd heq (by simp)
      · simp only [Except.ok.injEq] at heq
        subst heq
        simp only [Except.ok.injEq, Prod.mk.injEq] at hfirst
        obtain ⟨ha, hs, hl, hst⟩ := hfirst
        subst ha
        subst hs
        subst hl
        subst hst
        constructor
        · simp [serviceInit, putSwap, lookupSwap, hlen]
        · simp [lookupSwap]

/-- Witness for C4: a concrete first initialization followed by a re-init
for the same hash with a different payload. -/
theorem serviceInit_duplicate_rejected_witness :
    serviceInit testStore2 testHash [9] [8] 900000 = .error .duplicateSwap ∧
    lookupSwap testStore2 testHash = some
      { params := { hash := testHash, clientPubKey := testClientPub,
                    servicePubKey := testSvcPub,
                    lockHeight := 799000 + lockHeightDelta },
        address := deriveSwapAddress testHash testClientPub testSvcPub
          (799000 + lockHeightDelta),
        creationHeight := 799000 } :=
  serviceInit_duplicate_rejected [] testStore2 testHash testClientPub [9] testSvcPub [8]
    799000 900000 (deriveSwapAddress testHash testClientPub testSvcPub 799288)
    testSvcPub 799288 rfl

/-- Claim C5: a client running `ClientWatch` with the preimage behind the
hash it gave `ServiceInit`, its own key material, and the service public
key and lock height `ServiceInit` returned derives exactly the deposit
address `ServiceInit` returned. -/
theorem serviceInit_clientWatch_roundtrip (hashFn pubFn : List Nat → List Nat)
    (store : SwapStore) (preimage key svcPub : List Nat) (h0 : Int)
    (addr : String) (spub : List Nat) (lock : Int) (st' : SwapStore)
    (hinit : serviceInit store (hashFn preimage) (pubFn key) svcPub h0 =
      .ok (addr, spub, lock, st')) :
    (clientWatch hashFn pubFn preimage key spub lock).1 = addr := by
  simp only [serviceInit, putSwap] at hinit
  split at hinit
  · exact absurd hinit (by simp)
  · split at hinit
    · exact absurd hinit (by simp)
    · simp only [Except.ok.injEq, Prod.mk.injEq] at hinit
      obtain ⟨ha, hs, hl, _⟩ := hinit
      subst ha
      subst hs
      subst hl
      rfl

/-- Witness for C5 at a concrete swap setup. -/
theorem serviceInit_clientWatch_roundtrip_witness :
    (clientWatch (fun _ => testHash) (fun _ => testClientPub) [5] [7] testSvcPub
        799288).1 =
      deriveSwapAddress testHash testClientPub testSvcPub 799288 :=
  serviceInit_clientWatch_roundtrip (fun _ => testHash) (fun _ => testClientPub) []
    [5] [7] testSvcPub 799000
    (deriveSwapAddress testHash testClientPub testSvcPub 799288) testSvcPub 799288
    testStore2 rfl

/-- Anatomy of a successful redeem build: the preimage matched, the output
is the deposit minus `feePerWeight * weight`, and that fee was strictly
below the deposit. -/
theorem buildRedeem_ok_anatomy (hashFn : List Nat → List Nat) (r : SwapRecord)
    (p : List Nat) (chain : List (String × Utxo)) (dest : String) (fpw : Int)
    (tx : RedeemTx) (hok : buildRedeem hashFn r p chain dest fpw = .ok tx) :
    hashFn p = r.params.hash ∧
    tx.outputValue =
      depositTotal chain r - fpw * redeemWeight (depositUtxos chain r).length ∧
    fpw * redeemWeight (depositUtxos chain r).length < depositTotal chain r := by
  simp only [buildRedeem] at hok
  split at hok
  · exact absurd hok (by simp)
  case isFalse hp =>
    split at hok
    · exact absurd hok (by simp)
    case isFalse hle =>
      refine ⟨not_not.mp hp, ?_, not_le.mp hle⟩
      simp only [Except.ok.injEq] at hok
      subst hok
      rfl

/-- Claim C6: for a fixed deposit, a strictly higher fee rate yields a
strictly smaller settlement output, and any fee rate whose computed fee
meets or exceeds the deposit makes the redeem fail with
`InsufficientFunds` rather than produce a zero or negative output. -/
theorem buildRedeem_fee_antitone (hashFn : List Nat → List Nat) (r : SwapRecord)
    (p : List Nat) (chain : List (String × Utxo)) (dest : String)
    (f1 f2 : Int) (tx1 tx2 : RedeemTx)
    (h12 : f1 < f2)
    (h1 : buildRedeem hashFn r p chain dest f1 = .ok tx1)
    (h2 : buildRedeem hashFn r p chain dest f2 = .ok tx2) :
    tx2.outputValue < tx1.outputValue ∧
    ∀ f, depositTotal chain r ≤ f * redeemWeight (depositUtxos chain r).length →
      buildRedeem hashFn r p chain dest f = .error .insufficientFunds := by
  obtain ⟨hp, ho1, _⟩ := buildRedeem_ok_anatomy hashFn r p chain dest f1 tx1 h1
  obtain ⟨_, ho2, _⟩ := buildRedeem_ok_anatomy hashFn r p chain dest f2 tx2 h2
  have hw : 0 < redeemWeight (depositUtxos chain r).length := by
    simp only [redeemWeight]
    omega
  constructor
  · rw [ho1, ho2]
    have hmul := mul_lt_mul_of_pos_right h12 hw
    linarith
  · intro f hf
    have hf' : ((depositUtxos chain r).map Utxo.value).sum ≤
        f * redeemWeight (depositUtxos chain r).length := hf
    simp [buildRedeem, hp, hf']

/-- The redeem transaction built at fee rate 0 in the C6 witness. -/
def testRedeem0 : RedeemTx :=
  { inputs := [{ txid := "t1", index := 0, value := 100000, blockHeight := 799100 }],
    destAddress := "destY", outputValue := 100000, fee := 0,
    preimage := testHash, signedBy := testSvcPub }

/-- The redeem transaction built at fee rate 1 in the C6 witness. -/
def testRedeem1 : RedeemTx :=
  { inputs := [{ txid := "t1", index := 0, value := 100000, blockHeight := 799100 }],
    destAddress := "destY", outputValue := 98490, fee := 1510,
    preimage := testHash, signedBy := testSvcPub }

/-- Witness for C6 at fee rates 0 and 1 on the funded test swap. -/
theorem buildRedeem_fee_antitone_witness :
    testRedeem1.outputValue < testRedeem0.outputValue ∧
    ∀ f, depositTotal testChain testRecord ≤
        f * redeemWeight (depositUtxos testChain testRecord).length →
      buildRedeem id testRecord testHash testChain "destY" f =
        .error .insufficientFunds :=
  buildRedeem_fee_antitone id testRecord testHash testChain "destY" 0 1
    testRedeem0 testRedeem1 (by decide) rfl rfl

/-- Claim C8: every successful `SubSwapClientRefund` returns the full
serialized bytes of the signed refund transaction together with the fee
that was deducted from the deposit (not merely a transaction id). -/
theorem clientRefund_returns_bytes_and_fee (validAddr : String → Bool)
    (estimator : Int → Except SwapError Int) (st : SwapStore)
    (chain : List (String × Utxo)) (currentHeight : Int)
    (req : SubSwapClientRefundRequest) (resp : SubSwapClientRefundResponse)
    (hok : subSwapClientRefund validAddr estimator st chain currentHeight req = .ok resp) :
    ∃ r tx fee,
      findByAddress st req.address = some r ∧
      (∃ fpw, buildRefund r chain req.refundAddress fpw currentHeight = .ok (tx, fee)) ∧
      resp.tx = serializeTx tx ∧ resp.fees = fee ∧
      tx.outputValue + fee = depositTotal chain r := by
  simp only [subSwapClientRefund] at hok
  split at hok
  · exact absurd hok (by simp)
  split at hok
  · exact absurd hok (by simp)
  split at hok
  · exact absurd hok (by simp)
  next feePerKw hdet =>
    split at hok
    · exact absurd hok (by simp)
    next tx fee hbuild =>
      simp only [Except.ok.injEq] at hok
      subst hok
      simp only [refundTxByAddress] at hbuild
      split at hbuild
      · exact absurd hbuild (by simp)
      next r hfind =>
        exact ⟨r, tx, fee, hfind, ⟨feePerKw, hbuild⟩, rfl, rfl,
          buildRefund_ok_spend r chain req.refundAddress feePerKw currentHeight
            tx fee hbuild⟩

/-- The refund transaction produced in the C8 witness. -/
def testRefundTx : RefundTx :=
  { inputs := [{ txid := "t1", index := 0, value := 100000, blockHeight := 799100 }],
    destAddress := "dst", outputValue := 98700, lockTime := 800000,
    signedBy := testClientPub }

/-- Witness for C8 at a concrete successful refund call. -/
theorem clientRefund_returns_bytes_and_fee_witness :
    ∃ r tx fee,
      findByAddress testStore "swpAddr" = some r ∧
      (∃ fpw, buildRefund r testChain "dst" fpw 800000 = .ok (tx, fee)) ∧
      (serializeTx testRefundTx) = serializeTx tx ∧ (1300 : Int) = fee ∧
      tx.outputValue + fee = depositTotal testChain r :=
  clientRefund_returns_bytes_and_fee (fun _ => true) (fun _ => .ok 1) testStore
    testChain 800000
    { address := "swpAddr", refundAddress := "dst", satPerByte := 0, targetConf := 6 }
    { tx := serializeTx testRefundTx, fees := 1300 } rfl
